import Mathlib

/-!
Shallow embedding of the `calendar` module of `polybar-agenda` (src/main.rs)
together with the argument handling of `main`.

Modelling conventions:
* `chrono::NaiveDateTime` (a local wall-clock instant) and `chrono::DateTime`
  (an absolute instant) are both modelled as whole seconds (`Int`); the
  calendar data handled by the program has second precision.
* `chrono::Duration` is modelled as a signed number of seconds (`Int`);
  `num_hours`, `num_minutes` and `num_seconds` perform the same i64 division
  as chrono, i.e. division truncating toward zero (`Int.tdiv`).
* The process environment (the local timezone database, the current end of
  day used by `now::DateTimeNow::end_of_day`, and the `rrule` crate) is
  abstracted into an explicit `Env` record threaded through the functions,
  so that everything stays a pure function of its inputs.
* Rust panics (the `unwrap` calls on the date-only start path) are modelled
  by an outer `Option`: `none` means the code panicked.
-/

namespace PolybarAgenda

/-- `chrono::Duration::num_hours`: whole hours, i64 division truncating toward zero. -/
def num_hours (d : Int) : Int := d.tdiv 3600

/-- `chrono::Duration::num_minutes`: whole minutes, truncating toward zero. -/
def num_minutes (d : Int) : Int := d.tdiv 60

/-- `chrono::Duration::num_seconds`. -/
def num_seconds (d : Int) : Int := d

/-- The error type of src/main.rs (`CalendarError`). -/
inductive CalendarError where
  | MissingStartTime
  | MissingEndTime
  | InvalidTimezone (tzid : String)
  | RRuleParseError (detail : String)
deriving DecidableEq

/-- `icalendar::CalendarDateTime`: a floating wall-clock value, a UTC instant,
or a wall-clock value tagged with an IANA timezone identifier. -/
inductive CalendarDateTime where
  | floating (dt : Int)
  | utc (instant : Int)
  | withTimezone (dt : Int) (tzid : String)

/-- `icalendar::DatePerhapsTime`: a date-time or a bare date. A bare date is
modelled as an abstract day value (`Int`). -/
inductive DatePerhapsTime where
  | dateTime (dt : CalendarDateTime)
  | date (d : Int)

/-- The capability surface of a calendar component used by `extract_event`
(`get_start`, `get_end`, `get_summary`, `property_value`). -/
structure Entry where
  getStart : Option DatePerhapsTime
  getEnd : Option DatePerhapsTime
  getSummary : Option String
  propertyValue : String → Option String

/-- The process environment abstracted from src/main.rs:
* `instToWall` models `Local.from_utc_datetime(..).naive_local()` (and
  `DateTime<Local>::naive_local()`): the local wall clock of an absolute
  instant;
* `tzLookup` models `Tz::from_str(tzid)` followed by
  `tz.from_local_datetime(dt).single().map(naive_local)`: `none` for an
  identifier missing from the IANA database, and the inner function returns
  `none` when the local time is ambiguous or nonexistent in that zone;
* `fromLocalDateMidnight` models
  `Local.from_local_date(d).unwrap().and_hms_opt(0,0,0).unwrap().naive_local()`
  before the unwraps: `none` when the conversion fails (which makes the Rust
  code panic);
* `endOfDayNow` models `Local::now().end_of_day().naive_local()`;
* `rruleParse` models `props.parse::<RRuleSet>()` : an error detail string on
  failure, otherwise the evaluator `fun after before limit => dates` behind
  `rrule.after(..).before(..).all(limit).dates` (absolute instants). -/
structure Env where
  instToWall : Int → Int
  tzLookup : String → Option (Int → Option Int)
  fromLocalDateMidnight : Int → Option Int
  endOfDayNow : Int
  rruleParse : String → Except String (Int → Int → Nat → List Int)

/-- `AgendaEntry` of src/main.rs. -/
structure AgendaEntry where
  name : String
  start : Int
  duration : Int
deriving DecidableEq

/-- `DisplayMode` of src/main.rs. -/
inductive DisplayMode where
  | default
  | compact
deriving DecidableEq

/-- `as_naive` of src/main.rs (lines 50-65). -/
def as_naive (env : Env) : CalendarDateTime → Except CalendarError Int
  | .floating f => .ok f
  | .utc u => .ok (env.instToWall u)
  | .withTimezone dt tzid =>
    match env.tzLookup tzid with
    | none => .error (.InvalidTimezone tzid)
    | some single =>
      match single dt with
      | none => .error (.InvalidTimezone tzid)
      | some r => .ok r

/-- The `RRULE_PROPERTIES` constant of src/main.rs. -/
def RRULE_PROPERTIES : List String := ["DTSTART", "RRULE", "EXRULE", "RDATE", "EXDATE"]

/-- `MAX_EVENTS` of src/main.rs. -/
def MAX_EVENTS : Nat := 100

/-- `HOURS_AHEAD` of src/main.rs. -/
def HOURS_AHEAD : Int := 32

/-- `HOURS_BEHIND` of src/main.rs. -/
def HOURS_BEHIND : Int := 32

/-- Resolution of the start value (src/main.rs lines 73-82). `none` models the
panic of the two `unwrap` calls on the date-only path. -/
def resolve_start (env : Env) (ent : Entry) : Option (Except CalendarError Int) :=
  match ent.getStart with
  | none => some (.error .MissingStartTime)
  | some (.dateTime dt) => some (as_naive env dt)
  | some (.date d) => (env.fromLocalDateMidnight d).map Except.ok

/-- Resolution of the duration (src/main.rs lines 84-90). -/
def resolve_duration (env : Env) (ent : Entry) (naive_start : Int) :
    Except CalendarError Int :=
  match ent.getEnd with
  | some (.dateTime et) => (as_naive env et).map (fun w => w - naive_start)
  | some (.date _) => .ok (env.endOfDayNow - naive_start)
  | none => .error .MissingEndTime

/-- The recurrence specification string built in src/main.rs lines 98-101:
for each present property, `"PROP:value\n"`, concatenated in the fixed order
of `RRULE_PROPERTIES`. -/
def rruleProps (ent : Entry) : String :=
  String.join (RRULE_PROPERTIES.filterMap
    (fun p => (ent.propertyValue p).map (fun x => p ++ ":" ++ x ++ "\n")))

/-- `extract_event` of src/main.rs (lines 68-121). The outer `Option` is
`none` exactly when the Rust code would panic (the unwraps on a date-only
start). -/
def extract_event (env : Env) (ent : Entry) (sod eod : Int) :
    Option (Except CalendarError (List AgendaEntry)) :=
  match resolve_start env ent with
  | none => none
  | some (.error e) => some (.error e)
  | some (.ok naive_start) =>
    match resolve_duration env ent naive_start with
    | .error e => some (.error e)
    | .ok duration =>
      let name := ent.getSummary.getD ""
      if (ent.propertyValue "RRULE").isNone then
        some (.ok [⟨name, naive_start, duration⟩])
      else
        match env.rruleParse (rruleProps ent) with
        | .error e => some (.error (.RRuleParseError e))
        | .ok rset =>
          some (.ok ((rset sod eod MAX_EVENTS).map
            (fun a => ⟨name, env.instToWall a, duration⟩)))

/-- `format_duration` of src/main.rs (lines 123-131). -/
def format_duration (d : Int) : String :=
  if num_hours d ≠ 0 then toString (num_hours d) ++ "h"
  else if num_minutes d ≠ 0 then toString (num_minutes d) ++ "min"
  else toString (num_seconds d) ++ "s"

/-- Two-digit zero padding used by chrono's `%H` and `%M` format directives. -/
def pad2 (n : Int) : String :=
  if n < 10 then "0" ++ toString n else toString n

/-- `entry.start.format("%H:%M")`: the 24-hour wall-clock time of day of a
`NaiveDateTime` modelled as seconds since an epoch midnight. -/
def formatHHMM (t : Int) : String :=
  pad2 ((t.emod 86400).ediv 3600) ++ ":" ++ pad2 (((t.emod 86400).ediv 60).emod 60)

/-- `format_agenda_entry_compact` of src/main.rs (lines 144-158). -/
def format_agenda_entry_compact (entry : AgendaEntry) (w : Int) : String :=
  let time_until := entry.start - w
  let time_remaining := (entry.start + entry.duration) - w
  if num_minutes time_until > 0 ∨ num_hours time_until > 0 then
    entry.name ++ " · " ++ format_duration time_until
  else
    entry.name ++ " · " ++ format_duration |time_until| ++ "/" ++
      format_duration time_remaining

/-- `format_agenda_entry_default` of src/main.rs (lines 160-179). -/
def format_agenda_entry_default (entry : AgendaEntry) (w : Int) : String :=
  let start_time := formatHHMM entry.start
  let time_until := w - entry.start
  if num_seconds time_until > 0 then
    entry.name ++ " " ++ start_time ++ " (" ++ format_duration time_until ++ " ago)"
  else
    entry.name ++ " " ++ start_time ++ " (in " ++ format_duration |time_until| ++ ")"

/-- `format_agenda_entry` of src/main.rs (lines 133-142). -/
def format_agenda_entry (mode : DisplayMode) (entry : AgendaEntry) (w : Int) : String :=
  match mode with
  | .default => format_agenda_entry_default entry w
  | .compact => format_agenda_entry_compact entry w

/-- `icalendar::CalendarComponent` restricted to what `process_calendar`
distinguishes: the three component kinds run through `extract_event` and a
catch-all for everything else. -/
inductive CalendarComponent where
  | event (e : Entry)
  | todo (e : Entry)
  | venue (e : Entry)
  | other

/-- The entry behind a component, matching the `filter_map` arms of
src/main.rs lines 192-197 (`other` contributes nothing). -/
def componentEntry? : CalendarComponent → Option Entry
  | .event e => some e
  | .todo e => some e
  | .venue e => some e
  | .other => none

/-- The `filter_map(.. extract_event .. .ok()).flatten()` stage of
`process_calendar` (src/main.rs lines 190-198): failed entries contribute
nothing, successful ones are flattened in order. `none` propagates a panic. -/
def extractAll (env : Env) (sod eod : Int) : List CalendarComponent → Option (List AgendaEntry)
  | [] => some []
  | c :: cs =>
    match componentEntry? c with
    | none => extractAll env sod eod cs
    | some ent =>
      match extract_event env ent sod eod with
      | none => none
      | some (.error _) => extractAll env sod eod cs
      | some (.ok occs) => (extractAll env sod eod cs).map (fun rest => occs ++ rest)

/-- The relevance filter predicate of `process_calendar`
(src/main.rs lines 200-203). -/
def select_keep (current_time : Int) (item : AgendaEntry) : Bool :=
  decide (current_time ≤ item.start + item.duration) &&
    decide (num_hours (current_time - item.start) < 24)

/-- The sort-filter-truncate-format-join tail of `process_calendar`
(src/main.rs lines 199-207), applied to the flattened occurrence list. -/
def select_and_render (occs : List AgendaEntry) (mode : DisplayMode)
    (current_time : Int) : String :=
  String.join (List.intersperse " » "
    ((((occs.mergeSort (fun a b => decide (a.start ≤ b.start))).filter
        (select_keep current_time)).take 2).map
      (fun item => format_agenda_entry mode item current_time)))

/-- `process_calendar` of src/main.rs (lines 181-208). `none` models a panic
escaping from `extract_event`. -/
def process_calendar (env : Env) (cal : List CalendarComponent) (mode : DisplayMode)
    (now : Int) : Option String :=
  let current_time := env.instToWall now
  let extract_start := now - 3600 * HOURS_BEHIND
  let extract_end := now + 3600 * HOURS_AHEAD
  (extractAll env extract_start extract_end cal).map
    (fun occs => select_and_render occs mode current_time)

/-- The argument handling of `main` (src/main.rs lines 216-227): fewer than
two arguments (program name included) is a fatal error; the Compact flag is
selected when at least three arguments are present and the second is
`--display-compact`; the file path is always the last argument. -/
def parse_args (args : List String) : Except String (DisplayMode × String) :=
  if args.length < 2 then
    .error "Calendar file not provided"
  else
    let mode :=
      if 3 ≤ args.length ∧ args[1]? = some "--display-compact" then
        DisplayMode.compact
      else
        DisplayMode.default
    .ok (mode, args.getLast?.getD "")

/-! ## Helper lemmas -/

/-- Truncating division by 3600 is below 24 exactly on spans below 24 hours
(true for negative spans on both sides, since truncation moves toward zero). -/
theorem tdiv_3600_lt_24 (d : Int) : d.tdiv 3600 < 24 ↔ d < 24 * 3600 := by
  rcases d with m | m <;> simp [Int.tdiv, Int.negSucc_eq] <;> omega

/-! ## Claims -/

/-- Claim C1: the relevance filter of `process_calendar` keeps an occurrence iff
`start + duration ≥ now` and `now − start < 24` hours; consequently fully
ended occurrences are dropped, occurrences started at least 24h ago are
dropped even if still running, and every future occurrence passing the first
condition is kept. -/
theorem C1_select_keep_iff (nm : String) (start dur now : Int) :
    select_keep now ⟨nm, start, dur⟩ = true ↔
      (start + dur ≥ now ∧ now - start < 24 * 3600) := by
  simp only [select_keep, Bool.and_eq_true, decide_eq_true_eq, num_hours,
    tdiv_3600_lt_24, ge_iff_le]

/-- Closed instance of `C1_select_keep_iff`: a one-hour occurrence starting
1000 seconds before `now` is kept. -/
theorem C1_select_keep_iff_witness : select_keep 1000 ⟨"E", 0, 3600⟩ = true :=
  (C1_select_keep_iff "E" 0 3600 1000).mpr (by decide)

/-- Claim C3: `format_duration` renders exactly one unit, the largest whole
non-zero one in priority hours, then minutes, then seconds, with the
whole-unit count truncated toward zero, and the zero duration renders
`"0s"`. -/
theorem C3_format_duration_units (d : Int) :
    (num_hours d ≠ 0 → format_duration d = toString (num_hours d) ++ "h") ∧
    (num_hours d = 0 → num_minutes d ≠ 0 →
      format_duration d = toString (num_minutes d) ++ "min") ∧
    (num_hours d = 0 → num_minutes d = 0 →
      format_duration d = toString d ++ "s") ∧
    (d = 0 → format_duration d = "0s") := by
  refine ⟨fun h => ?_, fun h1 h2 => ?_, fun h1 h2 => ?_, fun h => ?_⟩
  · simp [format_duration, h]
  · simp [format_duration, h1, h2]
  · simp [format_duration, h1, h2, num_seconds]
  · subst h; decide

/-- Closed instances of `C3_format_duration_units` at two hours, thirty
minutes, forty-five seconds and zero. -/
theorem C3_format_duration_units_witness :
    format_duration 7200 = "2h" ∧ format_duration 1800 = "30min" ∧
      format_duration 45 = "45s" ∧ format_duration 0 = "0s" :=
  ⟨(C3_format_duration_units 7200).1 (by decide),
   (C3_format_duration_units 1800).2.1 (by decide) (by decide),
   (C3_format_duration_units 45).2.2.1 (by decide) (by decide),
   (C3_format_duration_units 0).2.2.2 rfl⟩

/-- Claim C4: evaluating the Compact formatter at the occurrence
`("Ongoing Event", 13:15, 2h)` (start = 47700 s, duration = 7200 s) with
`now` = 14:00 (50400 s) yields `"Ongoing Event · 45min/1h"` — not the
`"Ongoing Event · 45min/1.25h"` asserted by the claim and by the repository's
own test `test_format_agenda_entry_compact`, because `format_duration`
truncates the remaining 1h15min span to whole hours. -/
theorem C4_compact_ongoing_example :
    format_agenda_entry DisplayMode.compact ⟨"Ongoing Event", 47700, 7200⟩ 50400 =
        "Ongoing Event · 45min/1h" ∧
      "Ongoing Event · 45min/1h" ≠ "Ongoing Event · 45min/1.25h" :=
  ⟨by decide, by decide⟩

/-- Inversion for a successful `extract_event`: a start and a duration were
resolved, and the occurrence list is either the singleton of the
non-recurring branch or the mapped recurrence instances. -/
theorem extract_event_ok_cases (env : Env) (ent : Entry) (sod eod : Int)
    (occs : List AgendaEntry)
    (hok : extract_event env ent sod eod = some (Except.ok occs)) :
    ∃ s dur, resolve_start env ent = some (Except.ok s) ∧
      resolve_duration env ent s = Except.ok dur ∧
      (((ent.propertyValue "RRULE").isNone = true ∧
          occs = [⟨ent.getSummary.getD "", s, dur⟩]) ∨
        (∃ rs, (ent.propertyValue "RRULE").isNone = false ∧
          env.rruleParse (rruleProps ent) = Except.ok rs ∧
          occs = (rs sod eod MAX_EVENTS).map
            (fun a => ⟨ent.getSummary.getD "", env.instToWall a, dur⟩))) := by
  unfold extract_event at hok
  cases hrs : resolve_start env ent with
  | none => simp only [hrs] at hok; simp at hok
  | some r =>
    cases r with
    | error e => simp only [hrs] at hok; simp at hok
    | ok s =>
      simp only [hrs] at hok
      cases hd : resolve_duration env ent s with
      | error e => simp only [hd] at hok; simp at hok
      | ok dur =>
        simp only [hd] at hok
        by_cases hr : (ent.propertyValue "RRULE").isNone
        · simp only [hr, if_true, Option.some.injEq, Except.ok.injEq] at hok
          exact ⟨s, dur, rfl, hd, Or.inl ⟨hr, hok.symm⟩⟩
        · cases hp : env.rruleParse (rruleProps ent) with
          | error e =>
            simp only [eq_false_of_ne_true hr, Bool.false_eq_true, if_false, hp] at hok
            simp at hok
          | ok rs =>
            simp only [eq_false_of_ne_true hr, Bool.false_eq_true, if_false, hp,
              Option.some.injEq, Except.ok.injEq] at hok
            exact ⟨s, dur, rfl, hd,
              Or.inr ⟨rs, eq_false_of_ne_true hr, rfl, hok.symm⟩⟩

/-- A concrete environment for closed evaluations. Its timezone database
mirrors the identifiers exercised by the repository's `test_as_naive`:
`"America/New_York"` resolves (uniquely, the resolved `naive_local` being the
tagged wall time, exactly as `tz.from_local_datetime(dt).single()` followed by
`naive_local()` behaves in the source), while `"Invalid/Timezone"` — or any
other identifier — is not in the IANA database, so `Tz::from_str` fails.
Date-only starts resolve to local midnight 0 and the current day ends at
second 86400. -/
def envIana : Env where
  instToWall := id
  tzLookup := fun tzid =>
    if tzid = "America/New_York" then some (fun dt => some dt) else none
  fromLocalDateMidnight := fun _ => some 0
  endOfDayNow := 86400
  rruleParse := fun _ => .error "unsupported"

/-- An entry whose explicit end (wall second 0) precedes its start
(wall second 1000). -/
def entEndBeforeStart : Entry where
  getStart := some (.dateTime (.floating 1000))
  getEnd := some (.dateTime (.floating 0))
  getSummary := some "X"
  propertyValue := fun _ => none

/-- Counterexample to claim C5: extraction succeeds on an entry whose
explicit end precedes its start and produces the occurrence
`("X", 1000, -1000)` with a strictly negative duration, violating the
claimed invariant `duration ≥ 0`. -/
theorem C5_counterexample :
    extract_event envIana entEndBeforeStart 0 0 =
        some (Except.ok [⟨"X", 1000, -1000⟩]) ∧
      (⟨"X", 1000, -1000⟩ : AgendaEntry).duration < 0 :=
  ⟨rfl, by decide⟩

/-- Claim C5 (amended): every occurrence produced by a successful extraction
has `duration ≥ 0` provided the entry's resolved end — the normalized
explicit date-time end, or, for a date-only end, the current day's end-of-day
instant — is at or after the resolved start; an end preceding the start
instead yields a negative duration (see the counterexample). -/
theorem C5_duration_nonneg (env : Env) (ent : Entry) (sod eod : Int)
    (occs : List AgendaEntry)
    (hend : ∀ s, resolve_start env ent = some (Except.ok s) →
      (∀ et w, ent.getEnd = some (.dateTime et) → as_naive env et = Except.ok w → s ≤ w) ∧
      (∀ d, ent.getEnd = some (.date d) → s ≤ env.endOfDayNow))
    (hok : extract_event env ent sod eod = some (Except.ok occs)) :
    ∀ occ ∈ occs, 0 ≤ occ.duration := by
  obtain ⟨s, dur, hs, hd, hcases⟩ := extract_event_ok_cases env ent sod eod occs hok
  have hdur : 0 ≤ dur := by
    obtain ⟨h1, h2⟩ := hend s hs
    unfold resolve_duration at hd
    cases hge : ent.getEnd with
    | none => simp only [hge] at hd; simp at hd
    | some dpt =>
      cases dpt with
      | dateTime et =>
        simp only [hge] at hd
        cases hw : as_naive env et with
        | error e => simp only [hw, Except.map] at hd; simp at hd
        | ok w =>
          simp only [hw, Except.map, Except.ok.injEq] at hd
          have := h1 et w hge hw
          omega
      | date dd =>
        simp only [hge, Except.ok.injEq] at hd
        have := h2 dd hge
        omega
  rcases hcases with ⟨_, rfl⟩ | ⟨rs, _, _, rfl⟩
  · intro occ hocc
    simp only [List.mem_singleton] at hocc
    subst hocc
    exact hdur
  · intro occ hocc
    simp only [List.mem_map] at hocc
    obtain ⟨a, _, rfl⟩ := hocc
    exact hdur

/-- An entry with a floating start at second 0 and a floating end at
second 100. -/
def entWellFormed : Entry where
  getStart := some (.dateTime (.floating 0))
  getEnd := some (.dateTime (.floating 100))
  getSummary := some "X"
  propertyValue := fun _ => none

/-- Closed instance of `C5_duration_nonneg`: the single occurrence extracted
from `entWellFormed` has a non-negative duration. -/
theorem C5_duration_nonneg_witness : 0 ≤ (⟨"X", 0, 100⟩ : AgendaEntry).duration :=
  C5_duration_nonneg envIana entWellFormed 0 0 [⟨"X", 0, 100⟩]
    (by
      intro s hs
      have hs0 : resolve_start envIana entWellFormed = some (Except.ok 0) := rfl
      rw [hs0] at hs
      injection hs with hs1
      injection hs1 with hs2
      subst hs2
      constructor
      · intro et w het hw
        have he0 : entWellFormed.getEnd = some (.dateTime (.floating 100)) := rfl
        rw [he0] at het
        injection het with het1
        injection het1 with het2
        subst het2
        have hw0 : as_naive envIana (.floating 100) = Except.ok 100 := rfl
        rw [hw0] at hw
        injection hw with hw1
        omega
      · intro d hd
        have he0 : entWellFormed.getEnd = some (.dateTime (.floating 100)) := rfl
        rw [he0] at hd
        injection hd with hd1
        injection hd1)
    rfl ⟨"X", 0, 100⟩ (by simp)

/-- Counterexample to claim C6: with `start = now` (both second 50400, a
14:00 wall clock), the Default formatter takes the `"(in …)"` branch and
renders `"E 14:00 (in 0s)"`, not the `"… ago"` form the claim requires for
the exact-equality case. -/
theorem C6_counterexample :
    format_agenda_entry DisplayMode.default ⟨"E", 50400, 3600⟩ 50400 =
        "E 14:00 (in 0s)" ∧
      "E 14:00 (in 0s)" ≠ "E 14:00 (0s ago)" :=
  ⟨by decide, by decide⟩

/-- Claim C6 (amended): in Default mode the formatter renders
`"{name} {HH:MM} ({duration} ago)"` whenever the occurrence's start is
strictly before `now` (by at least one whole second) and
`"{name} {HH:MM} (in {duration})"` whenever start is at or after `now` —
the exact-equality case `start = now` falls in the `"in"` branch. -/
theorem C6_default_branches (e : AgendaEntry) (w : Int) :
    (0 < w - e.start →
      format_agenda_entry DisplayMode.default e w =
        e.name ++ " " ++ formatHHMM e.start ++ " (" ++
          format_duration (w - e.start) ++ " ago)") ∧
    (w ≤ e.start →
      format_agenda_entry DisplayMode.default e w =
        e.name ++ " " ++ formatHHMM e.start ++ " (in " ++
          format_duration (e.start - w) ++ ")") := by
  constructor
  · intro h
    simp [format_agenda_entry, format_agenda_entry_default, num_seconds, h]
  · intro h
    have h0 : ¬ (0 < w - e.start) := by omega
    have habs : |w - e.start| = e.start - w := by
      rw [abs_of_nonpos (by omega)]
      ring
    simp [format_agenda_entry, format_agenda_entry_default, num_seconds, h0, habs]

/-- Closed instance of `C6_default_branches`: a 13:30 occurrence at 14:00
renders with the `"ago"` form. -/
theorem C6_default_branches_witness :
    format_agenda_entry DisplayMode.default ⟨"Past Event", 48600, 3600⟩ 50400 =
      "Past Event 13:30 (30min ago)" :=
  (C6_default_branches ⟨"Past Event", 48600, 3600⟩ 50400).1 (by decide)

/-- An entry whose start is tagged with the unknown timezone identifier
`"Invalid/Timezone"` and which has no end at all. -/
def entBadTzNoEnd : Entry where
  getStart := some (.dateTime (.withTimezone 0 "Invalid/Timezone"))
  getEnd := none
  getSummary := none
  propertyValue := fun _ => none

/-- Counterexample to claim C7: an entry with a start but no end does not
always fail with `MissingEndTime` — when the start's timezone identifier is
unknown, start resolution fails first and extraction reports
`InvalidTimezone` (the repository's `test_as_naive` confirms that
`"Invalid/Timezone"` fails to resolve). -/
theorem C7_counterexample :
    extract_event envIana entBadTzNoEnd 0 0 =
        some (Except.error (.InvalidTimezone "Invalid/Timezone")) ∧
      CalendarError.InvalidTimezone "Invalid/Timezone" ≠ CalendarError.MissingEndTime :=
  ⟨rfl, by decide⟩

/-- A component whose extraction fails with a per-entry error contributes
nothing to the flattened occurrence list, wherever it sits in the document. -/
theorem extractAll_skip_failed (env : Env) (sod eod : Int) (bad : CalendarComponent)
    (ent : Entry) (err : CalendarError)
    (hcomp : componentEntry? bad = some ent)
    (herr : extract_event env ent sod eod = some (Except.error err)) :
    ∀ cal₁ cal₂, extractAll env sod eod (cal₁ ++ bad :: cal₂) =
      extractAll env sod eod (cal₁ ++ cal₂)
  | [], cal₂ => by simp [extractAll, hcomp, herr]
  | c :: cs, cal₂ => by
    have ih := extractAll_skip_failed env sod eod bad ent err hcomp herr cs cal₂
    simp only [List.cons_append, extractAll, List.append_eq]
    rw [ih]

/-- Claim C7 (amended): an entry lacking a start fails with
`MissingStartTime`; an entry whose start resolves successfully but which
lacks an end fails with `MissingEndTime` (an entry whose start itself fails
to resolve reports that failure instead — see the counterexample); and a
failed entry contributes zero occurrences while the rest of the document is
still processed. -/
theorem C7_per_entry_failures :
    (∀ (env : Env) (ent : Entry) (sod eod : Int), ent.getStart = none →
      extract_event env ent sod eod = some (Except.error .MissingStartTime)) ∧
    (∀ (env : Env) (ent : Entry) (sod eod : Int) (s : Int),
      resolve_start env ent = some (Except.ok s) → ent.getEnd = none →
      extract_event env ent sod eod = some (Except.error .MissingEndTime)) ∧
    (∀ (env : Env) (cal₁ cal₂ : List CalendarComponent) (bad : CalendarComponent)
      (ent : Entry) (mode : DisplayMode) (now : Int) (err : CalendarError),
      componentEntry? bad = some ent →
      extract_event env ent (now - 3600 * HOURS_BEHIND) (now + 3600 * HOURS_AHEAD) =
        some (Except.error err) →
      process_calendar env (cal₁ ++ bad :: cal₂) mode now =
        process_calendar env (cal₁ ++ cal₂) mode now) := by
  refine ⟨?_, ?_, ?_⟩
  · intro env ent sod eod h
    unfold extract_event resolve_start
    simp only [h]
  · intro env ent sod eod s hs hend
    unfold extract_event
    simp only [hs]
    unfold resolve_duration
    simp only [hend]
  · intro env cal₁ cal₂ bad ent mode now err hcomp herr
    have h := extractAll_skip_failed env (now - 3600 * HOURS_BEHIND)
      (now + 3600 * HOURS_AHEAD) bad ent err hcomp herr cal₁ cal₂
    unfold process_calendar
    simp only [h]

/-- An entry with no start value at all. -/
def entNoStart : Entry where
  getStart := none
  getEnd := none
  getSummary := none
  propertyValue := fun _ => none

/-- Closed instance of the first part of `C7_per_entry_failures`: the empty
entry fails with `MissingStartTime`. -/
theorem C7_per_entry_failures_witness :
    extract_event envIana entNoStart 0 0 = some (Except.error .MissingStartTime) :=
  C7_per_entry_failures.1 envIana entNoStart 0 0 rfl

/-- Claim C8: when a recurring entry is expanded, assuming the recurrence
evaluator's contract as the spec states it for the external `rrule` crate —
`after`/`before`/`all` yield instants strictly between the window bounds,
at most `MAX_EVENTS` of them — and a strictly monotone instant-to-wall-clock
conversion, every produced occurrence starts strictly inside the window,
the count never exceeds 100, and each occurrence carries the entry's
summary-or-empty name and the single resolved duration. -/
theorem C8_recurring_window_bounds (env : Env) (ent : Entry) (sod eod : Int)
    (rs : Int → Int → Nat → List Int) (occs : List AgendaEntry)
    (hparse : env.rruleParse (rruleProps ent) = Except.ok rs)
    (hwin : ∀ i ∈ rs sod eod MAX_EVENTS, sod < i ∧ i < eod)
    (hlen : (rs sod eod MAX_EVENTS).length ≤ 100)
    (hmono : StrictMono env.instToWall)
    (hrr : (ent.propertyValue "RRULE").isSome = true)
    (hok : extract_event env ent sod eod = some (Except.ok occs)) :
    occs.length ≤ 100 ∧
      ∃ s dur, resolve_start env ent = some (Except.ok s) ∧
        resolve_duration env ent s = Except.ok dur ∧
        ∀ occ ∈ occs,
          (env.instToWall sod < occ.start ∧ occ.start < env.instToWall eod) ∧
          occ.name = ent.getSummary.getD "" ∧ occ.duration = dur := by
  obtain ⟨s, dur, hs, hd, hcases⟩ := extract_event_ok_cases env ent sod eod occs hok
  rcases hcases with ⟨hnone, _⟩ | ⟨rs', _, hparse', hocc⟩
  · rw [Option.isNone_iff_eq_none] at hnone
    rw [hnone] at hrr
    simp at hrr
  · rw [hparse] at hparse'
    injection hparse' with hrs'
    subst hrs'
    subst hocc
    refine ⟨?_, s, dur, hs, hd, ?_⟩
    · rw [List.length_map]
      exact hlen
    · intro occ hocc
      rw [List.mem_map] at hocc
      obtain ⟨a, ha, rfl⟩ := hocc
      obtain ⟨ha1, ha2⟩ := hwin a ha
      exact ⟨⟨hmono ha1, hmono ha2⟩, rfl, rfl⟩

/-- A recurrence evaluator for closed instances: one instant just above the
lower bound whenever the window is wide enough. -/
def rsOne : Int → Int → Nat → List Int :=
  fun lo hi _ => if lo + 1 < hi then [lo + 1] else []

/-- A concrete environment whose recurrence parser accepts everything and
evaluates to `rsOne`. -/
def envRec : Env where
  instToWall := id
  tzLookup := fun _ => none
  fromLocalDateMidnight := fun _ => some 0
  endOfDayNow := 86400
  rruleParse := fun _ => .ok rsOne

/-- A recurring entry: floating start at second 0, floating end at
second 3600, and a daily recurrence rule. -/
def entRecurring : Entry where
  getStart := some (.dateTime (.floating 0))
  getEnd := some (.dateTime (.floating 3600))
  getSummary := some "R"
  propertyValue := fun p => if p = "RRULE" then some "FREQ=DAILY" else none

/-- Closed instance of `C8_recurring_window_bounds`: the expansion of
`entRecurring` over the window `(0, 10)` stays within the occurrence cap. -/
theorem C8_recurring_window_bounds_witness :
    ([(⟨"R", 1, 3600⟩ : AgendaEntry)]).length ≤ 100 :=
  (C8_recurring_window_bounds envRec entRecurring 0 10 rsOne [⟨"R", 1, 3600⟩]
    rfl (by decide) (by decide) strictMono_id rfl rfl).1

/-- Counterexample to claim C9: with three arguments beyond the program name
whose first is `--display-compact`, the code still selects Compact mode
(`args.len() >= 3` in src/main.rs line 221), while the claim says the flag is
honored only with exactly two arguments beyond the program name. -/
theorem C9_counterexample :
    parse_args ["prog", "--display-compact", "a.ics", "b.ics"] =
        Except.ok (DisplayMode.compact, "b.ics") ∧
      DisplayMode.compact ≠ DisplayMode.default :=
  ⟨rfl, by decide⟩

/-- Claim C9 (amended): `--display-compact` is honored whenever at least two
arguments beyond the program name are present and the first of them is the
flag; in every other case with at least one argument beyond the program name,
Default mode is used; the file path is always the last argument; and with no
argument beyond the program name the run fails. -/
theorem C9_mode_dispatch (args : List String) :
    (3 ≤ args.length ∧ args[1]? = some "--display-compact" →
      parse_args args = Except.ok (DisplayMode.compact, args.getLast?.getD "")) ∧
    (2 ≤ args.length → ¬(3 ≤ args.length ∧ args[1]? = some "--display-compact") →
      parse_args args = Except.ok (DisplayMode.default, args.getLast?.getD "")) ∧
    (args.length < 2 → parse_args args = Except.error "Calendar file not provided") := by
  refine ⟨?_, ?_, ?_⟩
  · intro h
    have h2 : ¬(args.length < 2) := by omega
    simp only [parse_args, if_neg h2, if_pos h]
  · intro h2 h
    have h2' : ¬(args.length < 2) := by omega
    simp only [parse_args, if_neg h2', if_neg h]
  · intro h
    simp only [parse_args, if_pos h]

/-- Closed instance of `C9_mode_dispatch`: the flag plus a file path selects
Compact mode. -/
theorem C9_mode_dispatch_witness :
    parse_args ["prog", "--display-compact", "cal.ics"] =
      Except.ok (DisplayMode.compact, "cal.ics") :=
  (C9_mode_dispatch ["prog", "--display-compact", "cal.ics"]).1 (by decide)

/-- A concrete environment for a local timezone in which midnight of the
start's day does not resolve (as happens under zones whose DST transition
skips 00:00, e.g. America/Santiago on a spring-forward day):
`and_hms_opt(0, 0, 0)` yields `None`, so the source's `unwrap` panics. -/
def envMidnightGap : Env where
  instToWall := id
  tzLookup := fun _ => none
  fromLocalDateMidnight := fun _ => none
  endOfDayNow := 86400
  rruleParse := fun _ => .error "unsupported"

/-- An entry whose start is date-only. -/
def entDateOnlyStart : Entry where
  getStart := some (.date 0)
  getEnd := some (.dateTime (.floating 3600))
  getSummary := some "D"
  propertyValue := fun _ => none

/-- Counterexample to claim C10: on the date-only-start path the unchecked
`unwrap` calls panic when the local-timezone conversion of the date to
midnight fails (ambiguous or nonexistent local midnight), so extraction does
not return a value at all — it is not total over every date value. -/
theorem C10_counterexample :
    extract_event envMidnightGap entDateOnlyStart 0 0 = none := rfl

/-- Every branch of `extract_event` after a non-panicking start resolution
returns a value. -/
theorem extract_event_isSome_of_resolve (env : Env) (ent : Entry) (sod eod : Int)
    (r : Except CalendarError Int) (h : resolve_start env ent = some r) :
    (extract_event env ent sod eod).isSome = true := by
  unfold extract_event
  rw [h]
  cases r with
  | error e => simp
  | ok s =>
    cases hd : resolve_duration env ent s with
    | error e => simp [hd]
    | ok dur =>
      simp only [hd]
      by_cases hr : (ent.propertyValue "RRULE").isNone
      · simp [hr]
      · cases hp : env.rruleParse (rruleProps ent) <;> simp [hr, hp]

/-- Claim C10 (amended): extraction is total — it returns `Ok` or `Err` and
never panics — for every entry whose date-only start (if any) has a
resolvable local midnight; when the local-timezone conversion of the start
date is ambiguous or nonexistent, the unchecked unwraps panic instead
(see the counterexample). -/
theorem C10_total_unless_midnight_gap (env : Env) (ent : Entry) (sod eod : Int)
    (h : ∀ d, ent.getStart = some (.date d) →
      (env.fromLocalDateMidnight d).isSome = true) :
    (extract_event env ent sod eod).isSome = true := by
  cases hgs : ent.getStart with
  | none =>
    exact extract_event_isSome_of_resolve env ent sod eod
      (Except.error CalendarError.MissingStartTime) (by simp [resolve_start, hgs])
  | some dpt =>
    cases dpt with
    | dateTime dt =>
      exact extract_event_isSome_of_resolve env ent sod eod (as_naive env dt)
        (by simp [resolve_start, hgs])
    | date d =>
      obtain ⟨v, hv⟩ := Option.isSome_iff_exists.mp (h d hgs)
      exact extract_event_isSome_of_resolve env ent sod eod (Except.ok v)
        (by simp [resolve_start, hgs, hv])

/-- Closed instance of `C10_total_unless_midnight_gap`: under an environment
that resolves local midnights, extraction of a date-only-start entry
returns. -/
theorem C10_total_unless_midnight_gap_witness :
    (extract_event envIana entDateOnlyStart 0 0).isSome = true :=
  C10_total_unless_midnight_gap envIana entDateOnlyStart 0 0
    (by intro d hd; rfl)

end PolybarAgenda
